import Mathlib

/-!
Verification of the SecureDrop security scanning and validation pipeline.

This file gives a shallow embedding, in Lean 4, of the core of the
repository: the `FileValidator` (file-validator module), the
`SecurityScanner` (security-scanner module) and the scan stage of
`SecureDropAPI.uploadFile` (backend-api module), and proves or refutes
the frozen claims about them.

Modelling conventions:
- A browser `File` is a `JSFile`: a name, a declared MIME type and a byte
  buffer (`List Nat`, each entry a byte); `size` is the buffer length,
  exactly as `File.size` agrees with the underlying bytes.
- JavaScript strings are decoded from bytes with a UTF-8 lossy decoder
  (the semantics of `TextDecoder("utf-8", fatal: false)` and
  `File.text()`), mapping invalid sequences to U+FFFD.
- Regular expressions from the source are embedded as executable
  character-level matchers; JavaScript case-insensitivity and the
  character classes are modelled over ASCII.
- Numeric code (`confidence`, `formatBytes`) is modelled over exact
  arithmetic (`Nat`, `Rat`) mirroring the source expressions; IEEE-754
  rounding noise of doubles is not modelled.
- Wall-clock fields (`scanTime`) and I/O effects (audit logging, storage)
  are outside the pure model; external collaborators (the virus-scan
  endpoint) are supplied through an explicit environment value, and the
  possibility that an internal detector throws inside `scanFile`'s `try`
  block is an explicit boolean, which selects the `catch` branch of the
  source.
-/

/-- A browser `File` value as the pipeline sees it: a filename, a declared
MIME type and the raw byte buffer. -/
structure JSFile where
  name : String
  type : String
  content : List Nat
deriving Repr, DecidableEq

/-- `File.size` is the length of the underlying byte buffer. -/
def JSFile.size (f : JSFile) : Nat := f.content.length

/-! ## File Validator (file-validator module) -/

/-- `FileValidationConfig` from the file-validator module. -/
structure FileValidationConfig where
  maxFileSize : Nat
  allowedMimeTypes : List String
  allowedExtensions : List String
  maxFiles : Nat
  requireHash : Bool
deriving Repr, DecidableEq

/-- `ValidationResult` from the file-validator module.  The optional
`metadata` record carries no validation verdict and is dropped from the
model; the claims concern `isValid`, `errors` and `warnings` only. -/
structure ValidationResult where
  isValid : Bool
  errors : List String
  warnings : List String
deriving Repr, DecidableEq

/-- `String.prototype.toLowerCase`, character by character (kept
kernel-computable by working on the character list). -/
def strLower (s : String) : String := ⟨s.data.map Char.toLower⟩

/-- `String.prototype.startsWith`, on the character list. -/
def strStartsWith (s p : String) : Bool := p.data.isPrefixOf s.data

/-- `String.prototype.endsWith`, on the character list. -/
def strEndsWith (s p : String) : Bool := p.data.isSuffixOf s.data

/-- `String.prototype.split` with a one-character separator, on the
character list. -/
def splitOnChar (sep : Char) : List Char → List (List Char)
  | [] => [[]]
  | c :: rest =>
    let r := splitOnChar sep rest
    if c == sep then [] :: r
    else (c :: r.headD []) :: r.tail

/-- `FileValidator.getFileExtension`: the lower-cased part after the last
dot, or the empty string when the name has no dot
(`parts.length > 1 ? parts[parts.length - 1].toLowerCase() : ""`). -/
def getFileExtension (filename : String) : String :=
  let parts := splitOnChar '.' filename.data
  if parts.length > 1 then ⟨(parts.getLastD []).map Char.toLower⟩ else ""

/-- `FileValidator.isMatchingMimeType`: an allowed type ending in `/*`
matches by prefix after `slice(0, -2)` (which drops the two final
characters, leaving e.g. `image` without a slash); otherwise the match is
exact equality. -/
def isMatchingMimeType (fileType allowedType : String) : Bool :=
  if strEndsWith allowedType "/*" then
    strStartsWith fileType (allowedType.dropRight 2)
  else fileType == allowedType

/-- The static magic-byte signature table of
`FileValidator.validateMagicBytes`, keyed by MIME type.  In the source a
missing key and the empty `text/plain` entry are treated alike
(`!expectedSignatures || expectedSignatures.length === 0` skips), so both
are rendered as `[]`. -/
def signatures (mime : String) : List (List Nat) :=
  if mime = "image/jpeg" then [[0xFF, 0xD8, 0xFF]]
  else if mime = "image/png" then [[0x89, 0x50, 0x4E, 0x47, 0x0D, 0x0A, 0x1A, 0x0A]]
  else if mime = "image/gif" then
    [[0x47, 0x49, 0x46, 0x38, 0x37, 0x61], [0x47, 0x49, 0x46, 0x38, 0x39, 0x61]]
  else if mime = "application/pdf" then [[0x25, 0x50, 0x44, 0x46]]
  else []

/-- The signature-mismatch error string of `validateMagicBytes`. -/
def sigErrorMsg (fileType : String) : String :=
  "File signature does not match expected type " ++ fileType

/-- Result of `FileValidator.validateMagicBytes`. -/
structure MagicByteResult where
  isValid : Bool
  error : Option String
deriving Repr, DecidableEq

/-- `FileValidator.validateMagicBytes`: reads the first 16 bytes and
requires that some candidate signature for the declared MIME type be a
prefix of them (`signature.every((byte, index) => bytes[index] === byte)`;
an out-of-range index reads `undefined` and fails the comparison, which is
exactly prefix matching).  Unknown or opaque types are skipped.  The
source's `catch` branch (a failed buffer read) is unreachable in the pure
model. -/
def validateMagicBytes (f : JSFile) : MagicByteResult :=
  let bytes := f.content.take 16
  if f.type = "" ∨ f.type = "application/octet-stream" then ⟨true, none⟩
  else
    let expected := signatures f.type
    if expected = [] then ⟨true, none⟩
    else
      let ok := expected.any (fun sig => sig.isPrefixOf bytes)
      ⟨ok, if ok then none else some (sigErrorMsg f.type)⟩

/-- Index of the binary unit used by `formatBytes`:
`Math.floor(Math.log(bytes) / Math.log(1024))`, i.e. the greatest `i`
with `1024 ^ i ≤ bytes` (for `bytes ≥ 1`), computed with a fuel-bounded
division loop. -/
def logFloor1024Aux : Nat → Nat → Nat
  | 0, _ => 0
  | fuel + 1, n => if n < 1024 then 0 else logFloor1024Aux fuel (n / 1024) + 1

/-- The unit exponent for `formatBytes`; fuel `n` always suffices. -/
def byteUnitIndex (n : Nat) : Nat := logFloor1024Aux n n

/-- The `sizes` array of `formatBytes`. -/
def sizesArr : List String := ["B", "KB", "MB", "GB"]

/-- Rounding of `num / den` to the nearest integer, half away from zero on
nonnegative values: the idealization of `toFixed` rounding. -/
def roundHalfUp (num den : Nat) : Nat := (2 * num + den) / (2 * den)

/-- Renders `n100 / 100` the way `parseFloat((x).toFixed(2))` prints it:
two decimals with trailing zeros (and a bare dot) removed. -/
def renderFixed2 (n100 : Nat) : String :=
  let ip := n100 / 100
  let fp := n100 % 100
  if fp = 0 then toString ip
  else if fp % 10 = 0 then toString ip ++ "." ++ toString (fp / 10)
  else if fp < 10 then toString ip ++ ".0" ++ toString fp
  else toString ip ++ "." ++ toString fp

/-- `FileValidator.formatBytes`: human-readable rendering in base-1024
units.  For `i` beyond the `sizes` array JavaScript reads `undefined`,
which string concatenation prints as `"undefined"`. -/
def formatBytes (bytes : Nat) : String :=
  if bytes = 0 then "0 B"
  else
    let i := byteUnitIndex bytes
    renderFixed2 (roundHalfUp (bytes * 100) (1024 ^ i)) ++ " " ++
      sizesArr.getD i "undefined"

/-- The unit token `formatBytes` appends for a given byte count. -/
def unitOf (bytes : Nat) : String :=
  if bytes = 0 then "B" else sizesArr.getD (byteUnitIndex bytes) "undefined"

/-- The size-check error string of `validateFile`. -/
def sizeErrorMsg (size maxSize : Nat) : String :=
  "File size " ++ (formatBytes size ++
    (" exceeds maximum allowed size " ++ formatBytes maxSize))

/-- The MIME-allow-list error string of `validateFile`; it lists the
allowed set joined with `", "`. -/
def mimeErrorMsg (fileType : String) (allowed : List String) : String :=
  "File type " ++ (fileType ++
    (" is not allowed. Allowed types: " ++ String.intercalate ", " allowed))

/-- The extension-allow-list error string of `validateFile`. -/
def extErrorMsg (ext : String) (allowed : List String) : String :=
  "File extension " ++ (ext ++
    (" is not allowed. Allowed extensions: " ++ String.intercalate ", " allowed))

/-- Size check of `validateFile` (its third block): a hard error when the
byte length exceeds `config.maxFileSize`. -/
def sizeErrors (cfg : FileValidationConfig) (f : JSFile) : List String :=
  if f.size > cfg.maxFileSize then [sizeErrorMsg f.size cfg.maxFileSize] else []

/-- MIME allow-list check of `validateFile`: active only when the list is
non-empty. -/
def mimeErrors (cfg : FileValidationConfig) (f : JSFile) : List String :=
  if 0 < cfg.allowedMimeTypes.length ∧
      cfg.allowedMimeTypes.any (fun t => isMatchingMimeType f.type t) = false then
    [mimeErrorMsg f.type cfg.allowedMimeTypes]
  else []

/-- Extension allow-list check of `validateFile`: the stored extension is
already lower-cased and the source lower-cases it again before the
`includes` test. -/
def extErrors (cfg : FileValidationConfig) (f : JSFile) : List String :=
  if 0 < cfg.allowedExtensions.length ∧
      cfg.allowedExtensions.contains (strLower (getFileExtension f.name)) = false then
    [extErrorMsg (getFileExtension f.name) cfg.allowedExtensions]
  else []

/-- Magic-byte check of `validateFile`: an invalid signature pushes the
produced error (the `|| "File signature validation failed"` fallback is
kept although `validateMagicBytes` always sets `error` when invalid). -/
def magicErrors (f : JSFile) : List String :=
  let r := validateMagicBytes f
  if r.isValid then [] else [r.error.getD "File signature validation failed"]

/-- `FileValidator.validateFile`.  A missing (empty) filename returns
early with the single error `"File name is required"`; otherwise the
size, MIME, extension and magic-byte checks each append their errors in
this fixed order.  The hash step (`config.requireHash`) only ever adds a
warning on a hash-computation failure, which cannot occur in the pure
model, so `warnings` is always empty. -/
def validateFile (cfg : FileValidationConfig) (f : JSFile) : ValidationResult :=
  if f.name = "" then ⟨false, ["File name is required"], []⟩
  else
    let errs := sizeErrors cfg f ++ mimeErrors cfg f ++ extErrors cfg f ++
      magicErrors f
    ⟨errs.isEmpty, errs, []⟩

/-- The per-file label of `validateFiles`:
`File ${index + 1} (${files[index]?.name || "unknown"}): ` — an empty
filename is falsy and prints as `unknown`. -/
def fileLabel (i : Nat) (name : String) : String :=
  "File " ++ (toString i ++ (" (" ++
    ((if name = "" then "unknown" else name) ++ "): ")))

/-- The too-many-files error string of `validateFiles`. -/
def tooManyMsg (maxFiles provided : Nat) : String :=
  "Too many files. Maximum allowed: " ++ (toString maxFiles ++
    (", provided: " ++ toString provided))

/-- `FileValidator.validateFiles`: a hard error when the batch exceeds
`config.maxFiles`, then every per-file error (guarded by `!result.isValid`
in the source) and warning relabelled with `fileLabel`. -/
def validateFiles (cfg : FileValidationConfig) (files : List JSFile) :
    ValidationResult :=
  let tooMany :=
    if files.length > cfg.maxFiles then [tooManyMsg cfg.maxFiles files.length]
    else []
  let perFileErrors := files.enum.flatMap fun p =>
    let r := validateFile cfg p.2
    if r.isValid then []
    else r.errors.map fun e => fileLabel (p.1 + 1) p.2.name ++ e
  let perFileWarnings := files.enum.flatMap fun p =>
    (validateFile cfg p.2).warnings.map fun w => fileLabel (p.1 + 1) p.2.name ++ w
  let allErrors := tooMany ++ perFileErrors
  ⟨allErrors.isEmpty, allErrors, perFileWarnings⟩

/-- The `GENERAL` entry of `DEFAULT_CONFIGS`. -/
def DEFAULT_CONFIGS.GENERAL : FileValidationConfig :=
  { maxFileSize := 10 * 1024 * 1024
    allowedMimeTypes := ["image/*", "application/pdf", "text/*"]
    allowedExtensions := ["jpg", "jpeg", "png", "gif", "webp", "pdf", "txt"]
    maxFiles := 10
    requireHash := true }

/-! ## Text decoding (TextDecoder "utf-8", fatal: false  /  File.text()) -/

/-- Is a byte a UTF-8 continuation byte? -/
def isContByte (b : Nat) : Bool := 0x80 ≤ b && b ≤ 0xBF

/-- The replacement character U+FFFD emitted for invalid sequences. -/
def replChar : Char := Char.ofNat 0xFFFD

/-- Lossy UTF-8 decoding: the behavior of
`new TextDecoder("utf-8", { fatal: false })` and `File.text()`. Invalid
bytes and truncated sequences decode to U+FFFD and decoding resumes at
the offending byte. -/
def utf8DecodeLossy : List Nat → List Char
  | [] => []
  | b :: rest =>
    if b < 0x80 then Char.ofNat b :: utf8DecodeLossy rest
    else if 0xC2 ≤ b ∧ b ≤ 0xDF then
      match rest with
      | [] => [replChar]
      | b2 :: r2 =>
        if isContByte b2 then
          Char.ofNat ((b - 0xC0) * 64 + (b2 - 0x80)) :: utf8DecodeLossy r2
        else replChar :: utf8DecodeLossy (b2 :: r2)
    else if 0xE0 ≤ b ∧ b ≤ 0xEF then
      let lo := if b = 0xE0 then 0xA0 else 0x80
      let hi := if b = 0xED then 0x9F else 0xBF
      match rest with
      | [] => [replChar]
      | b2 :: r2 =>
        if lo ≤ b2 ∧ b2 ≤ hi then
          match r2 with
          | [] => [replChar, replChar]
          | b3 :: r3 =>
            if isContByte b3 then
              Char.ofNat ((b - 0xE0) * 4096 + (b2 - 0x80) * 64 + (b3 - 0x80)) ::
                utf8DecodeLossy r3
            else replChar :: utf8DecodeLossy (b3 :: r3)
        else replChar :: utf8DecodeLossy (b2 :: r2)
    else if 0xF0 ≤ b ∧ b ≤ 0xF4 then
      let lo := if b = 0xF0 then 0x90 else 0x80
      let hi := if b = 0xF4 then 0x8F else 0xBF
      match rest with
      | [] => [replChar]
      | b2 :: r2 =>
        if lo ≤ b2 ∧ b2 ≤ hi then
          match r2 with
          | [] => [replChar, replChar]
          | b3 :: r3 =>
            if isContByte b3 then
              match r3 with
              | [] => [replChar, replChar, replChar]
              | b4 :: r4 =>
                if isContByte b4 then
                  Char.ofNat ((b - 0xF0) * 262144 + (b2 - 0x80) * 4096 +
                    (b3 - 0x80) * 64 + (b4 - 0x80)) :: utf8DecodeLossy r4
                else replChar :: utf8DecodeLossy (b4 :: r4)
            else replChar :: utf8DecodeLossy (b3 :: r3)
        else replChar :: utf8DecodeLossy (b2 :: r2)
    else replChar :: utf8DecodeLossy rest
termination_by l => l.length
decreasing_by all_goals (simp_all; try omega)

/-- Bytes decoded to a string. -/
def decodeString (bytes : List Nat) : String := ⟨utf8DecodeLossy bytes⟩

/-! ## Character-level embeddings of the source regular expressions -/

/-- JavaScript `\w` over ASCII. -/
def isWordChar (c : Char) : Bool := c.isAlphanum || c == '_'

/-- JavaScript `\s` over ASCII. -/
def isSpaceChar (c : Char) : Bool :=
  c == ' ' || c == '\t' || c == '\n' || c == '\r' ||
    c == Char.ofNat 0x0B || c == Char.ofNat 0x0C

/-- JavaScript line terminators, which `.` never matches. -/
def isLineTerm (c : Char) : Bool :=
  c == '\n' || c == '\r' || c == Char.ofNat 0x2028 || c == Char.ofNat 0x2029

/-- Lower-cases a character list; models the `i` regex flag over ASCII. -/
def lcs (l : List Char) : List Char := l.map Char.toLower

/-- Matcher for `/<tag[^>]*>/i` shapes (applied to a lower-cased text with
a lower-cased tag): some suffix starts with the tag and a `>` occurs at or
after the end of the tag. -/
def tagThenGt (tag : List Char) : List Char → Bool
  | [] => false
  | c :: rest =>
    (tag.isPrefixOf (c :: rest) && ((c :: rest).drop tag.length).contains '>') ||
      tagThenGt tag rest

/-- One position of `/on\w+\s*=/i`: `on`, a maximal nonempty word-char
run, maximal whitespace, then `=` (only the maximal runs can succeed, so
the backtracking regex is deterministic here). -/
def onHandlerAt (l : List Char) : Bool :=
  if ("on".data).isPrefixOf l then
    let l2 := l.drop 2
    let w := l2.takeWhile isWordChar
    if w.length ≥ 1 then
      match (l2.drop w.length).dropWhile isSpaceChar with
      | '=' :: _ => true
      | _ => false
    else false
  else false

/-- Matcher for `/on\w+\s*=/i` over a lower-cased text. -/
def onHandlerMatch : List Char → Bool
  | [] => false
  | c :: rest => onHandlerAt (c :: rest) || onHandlerMatch rest

/-- Contiguous-sublist test used to model substring search. -/
def isSubList (pat : List Char) : List Char → Bool
  | [] => pat.isEmpty
  | c :: rest => pat.isPrefixOf (c :: rest) || isSubList pat rest

/-- Substring test (`String.prototype.includes`). -/
def strContains (s pat : String) : Bool := isSubList pat.data s.data

/-- The `scriptPatterns` test of
`SecurityScanner.validateMimeAndMagicBytes`: the seven case-insensitive
header regexes, any first match producing the single Script Injection
threat. -/
def headerScriptMatch (text : String) : Bool :=
  let l := lcs text.data
  tagThenGt ("<script".data) l ||
    isSubList ("javascript:".data) l ||
    isSubList ("vbscript:".data) l ||
    onHandlerMatch l ||
    tagThenGt ("<iframe".data) l ||
    tagThenGt ("<embed".data) l ||
    tagThenGt ("<object".data) l

/-- Start positions of plain (case-sensitive) occurrences of `pat`. -/
def subOccs (pat : List Char) : List Char → List Nat :=
  go 0
where
  go (i : Nat) : List Char → List Nat
    | [] => []
    | c :: rest =>
      (if pat.isPrefixOf (c :: rest) then [i] else []) ++ go (i + 1) rest

/-- Start positions of word-boundary-delimited (`\b...\b`) occurrences of
a word-character keyword `kw`, tracking the previous character. -/
def boundaryOccs (kw : List Char) (l : List Char) : List Nat :=
  go none 0 l
where
  go (prev : Option Char) (i : Nat) : List Char → List Nat
    | [] => []
    | c :: rest =>
      (if (match prev with | none => true | some p => !isWordChar p) &&
          kw.isPrefixOf (c :: rest) &&
          (match (c :: rest).drop kw.length with
           | [] => true
           | d :: _ => !isWordChar d) then [i] else []) ++
        go (some c) (i + 1) rest

/-- Splits a character list at line terminators (segments `.` can span). -/
def splitLines : List Char → List (List Char)
  | [] => [[]]
  | c :: rest =>
    let r := splitLines rest
    if isLineTerm c then [] :: r
    else (c :: r.headD []) :: r.tail

/-- One line matches the SQL-injection regex
`/(\bSELECT\b|...|\bUNION\b).*(\bFROM\b|\bWHERE\b|\bINTO\b)/gi` iff some
statement keyword occurrence is followed (within the line, since `.` 
cannot cross a terminator) by a clause keyword occurrence. -/
def sqlLineMatch (line : List Char) : Bool :=
  let l := lcs line
  let aEnds := (["select", "insert", "update", "delete", "drop", "union"].map
    String.data).flatMap fun kw => (boundaryOccs kw l).map (· + kw.length)
  let bStarts := (["from", "where", "into"].map String.data).flatMap
    fun kw => boundaryOccs kw l
  aEnds.any fun e => bStarts.any fun s => e ≤ s

/-- Global match count of the SQL-injection regex: the greedy `.*` runs to
the last clause keyword of the line, so each matching line contributes
exactly one match. -/
def sqlCount (text : String) : Nat :=
  (splitLines text.data).countP fun line => sqlLineMatch line = true

/-- One line matches `/(\$\{|\#\{).*\}/g` iff a `${` or `#{` opener is
followed by a closing brace on the same line. -/
def templateLineMatch (line : List Char) : Bool :=
  let ends := (subOccs ("$\x7b".data) line ++ subOccs ("#\x7b".data) line).map
    (· + 2)
  let closes := subOccs ("\x7d".data) line
  ends.any fun e => closes.any fun s => e ≤ s

/-- Global match count of the template-injection regex: one per matching
line (the greedy `.*` swallows the rest of the line's braces). -/
def templateCount (text : String) : Nat :=
  (splitLines text.data).countP fun line => templateLineMatch line = true

/-- One position of
`/(\beval\b|\bexec\b|\bsystem\b|\bshell_exec\b|\bpassthru\b)\s*\(/gi` on a
lower-cased text: a boundary-delimited keyword, maximal whitespace, `(`. -/
def codeExecAt (prev : Option Char) (l : List Char) : Bool :=
  (match prev with | none => true | some p => !isWordChar p) &&
    (["eval", "exec", "system", "shell_exec", "passthru"].map String.data).any
      fun kw =>
        kw.isPrefixOf l &&
        (match l.drop kw.length with
         | [] => false
         | d :: _ =>
           !isWordChar d &&
           (match (l.drop kw.length).dropWhile isSpaceChar with
            | '(' :: _ => true
            | _ => false))

/-- Global match count of the code-execution regex.  Matches cannot
overlap (a second keyword cannot start inside keyword, whitespace or the
paren), so counting start positions equals the non-overlapping count. -/
def codeExecCount (text : String) : Nat :=
  go none (lcs text.data)
where
  go (prev : Option Char) : List Char → Nat
    | [] => 0
    | c :: rest => (if codeExecAt prev (c :: rest) then 1 else 0) + go (some c) rest

/-- Length of a match of `/(cmd\.exe|powershell|bash|sh)\s+[\/\-]/gi` at
the head of a lower-cased text, trying the alternatives in source order. -/
def cmdMatchLenAt (l : List Char) : Option Nat :=
  (["cmd.exe", "powershell", "bash", "sh"].map String.data).firstM fun kw =>
    if kw.isPrefixOf l then
      let rest := l.drop kw.length
      let sp := rest.takeWhile isSpaceChar
      if sp.length ≥ 1 then
        match rest.drop sp.length with
        | c :: _ => if c == '/' || c == '-' then some (kw.length + sp.length + 1)
                    else none
        | [] => none
      else none
    else none

/-- Fuel-bounded non-overlapping global count for the command-injection
regex (`sh` can occur inside a completed `bash` match, so matched spans
must be skipped).  Fuel `l.length` always suffices since every step
consumes at least one character. -/
def cmdCountFuel : Nat → List Char → Nat
  | 0, _ => 0
  | _ + 1, [] => 0
  | fuel + 1, c :: rest =>
    match cmdMatchLenAt (c :: rest) with
    | some n => 1 + cmdCountFuel fuel ((c :: rest).drop n)
    | none => cmdCountFuel fuel rest

/-- Global match count of the command-injection regex. -/
def cmdCount (text : String) : Nat :=
  cmdCountFuel text.data.length (lcs text.data)

/-- Length of a match of the XSS opening tag `<\s*script[^>]*>` at the
head of a lower-cased text: `<`, maximal whitespace, `script`, then all
characters to the first `>` inclusive. -/
def xssOpenAt (l : List Char) : Option Nat :=
  match l with
  | '<' :: rest =>
    let sp := rest.takeWhile isSpaceChar
    let r2 := rest.drop sp.length
    if ("script".data).isPrefixOf r2 then
      let r3 := r2.drop 6
      let body := r3.takeWhile (fun c => c != '>')
      match r3.drop body.length with
      | '>' :: _ => some (1 + sp.length + 6 + body.length + 1)
      | _ => none
    else none
  | _ => none

/-- Length of a match of the XSS closing tag `<\/\s*script\s*>` at the
head of a lower-cased text. -/
def xssCloseAt (l : List Char) : Option Nat :=
  match l with
  | '<' :: '/' :: rest =>
    let sp := rest.takeWhile isSpaceChar
    let r2 := rest.drop sp.length
    if ("script".data).isPrefixOf r2 then
      let r3 := r2.drop 6
      let sp2 := r3.takeWhile isSpaceChar
      match r3.drop sp2.length with
      | '>' :: _ => some (2 + sp.length + 6 + sp2.length + 1)
      | _ => none
    else none
  | _ => none

/-- Searches for the earliest closing tag reachable through the lazy
`.*?` (which cannot cross a line terminator); returns skipped length plus
the closing-tag length. -/
def xssFindClose : List Char → Option (Nat × Nat)
  | [] => none
  | c :: rest =>
    match xssCloseAt (c :: rest) with
    | some n => some (0, n)
    | none =>
      if isLineTerm c then none
      else match xssFindClose rest with
        | some (skip, n) => some (skip + 1, n)
        | none => none

/-- Length of a full match of `/<\s*script[^>]*>.*?<\/\s*script\s*>/gi`
at the head of a lower-cased text. -/
def xssMatchLenAt (l : List Char) : Option Nat :=
  match xssOpenAt l with
  | none => none
  | some olen =>
    match xssFindClose (l.drop olen) with
    | some (skip, clen) => some (olen + skip + clen)
    | none => none

/-- Fuel-bounded non-overlapping global count of the XSS block regex. -/
def xssCountFuel : Nat → List Char → Nat
  | 0, _ => 0
  | _ + 1, [] => 0
  | fuel + 1, c :: rest =>
    match xssMatchLenAt (c :: rest) with
    | some n => 1 + xssCountFuel fuel ((c :: rest).drop n)
    | none => xssCountFuel fuel rest

/-- Global match count of the XSS script-block regex. -/
def xssCount (text : String) : Nat :=
  xssCountFuel text.data.length (lcs text.data)

/-! ## Security Scanner (security-scanner module) -/

/-- Threat severity levels. -/
inductive Severity where
  | low | medium | high | critical
deriving Repr, DecidableEq

/-- The `type` discriminator of `SecurityThreat`. -/
inductive ThreatType where
  | virus | malware | injection | suspicious_content | yara_match
deriving Repr, DecidableEq

/-- `SecurityThreat` from the security-scanner module. -/
structure SecurityThreat where
  ttype : ThreatType
  name : String
  severity : Severity
  description : String
  signature : Option String := none
  offset : Option Nat := none
deriving Repr, DecidableEq

/-- `SecuritySignature`: a named pattern with severity.  The `RegExp`
pattern is modelled as its match predicate together with the string
`RegExp.prototype.toString` would print (used for the threat `signature`
field). -/
structure SecuritySignature where
  name : String
  pattern : String → Bool
  patternStr : String
  severity : Severity
  description : String

/-- `SecurityScanConfig` from the security-scanner module.  Custom
suspicious patterns are modelled as match predicates. -/
structure SecurityScanConfig where
  enableVirusScanning : Bool
  enableInjectionDetection : Bool
  enableYaraScanning : Bool
  enableSandboxing : Bool
  virusScannerEndpoint : Option String := none
  yaraRules : Option (List String) := none
  customSignatures : Option (List SecuritySignature) := none
  suspiciousPatterns : Option (List (String → Bool)) := none

/-- `SecurityScanResult` from the security-scanner module.  The
wall-clock `scanTime` field is not modelled. -/
structure SecurityScanResult where
  isClean : Bool
  threats : List SecurityThreat
  scanner : String
  confidence : ℚ
  quarantined : Bool

/-- One threat reported by the external virus-scan endpoint. -/
structure VirusThreatInfo where
  name : Option String
  description : Option String

/-- The JSON verdict of the external virus-scan endpoint
(`{ clean, threats }`). -/
structure VirusScanResponse where
  clean : Bool
  threats : Option (List VirusThreatInfo)

/-- The environment of one scan: the outcome of the external virus-scan
call.  `none` stands for any transport failure or non-OK response, which
the source catches and swallows. -/
structure ScanEnv where
  virusResponse : Option VirusScanResponse := none

/-- The executable signature table of
`SecurityScanner.validateMimeAndMagicBytes`. -/
def executableSignatures : List (List Nat × String × Severity) :=
  [([0x4D, 0x5A], "Windows PE Executable", .critical),
   ([0x7F, 0x45, 0x4C, 0x46], "Linux ELF Executable", .critical),
   ([0xFE, 0xED, 0xFA, 0xCE], "Mach-O Executable", .critical),
   ([0xCA, 0xFE, 0xBA, 0xBE], "Java Class File", .high),
   ([0x50, 0x4B, 0x03, 0x04], "ZIP Archive (potential)", .medium)]

/-- `SecurityScanner.matchesSignature`: byte-wise comparison of the
leading bytes (`bytes.length < signature.length` fails; otherwise every
signature byte must equal the byte at its index). -/
def matchesSignature (bytes signature : List Nat) : Bool :=
  signature.isPrefixOf bytes

/-- The archive exception of the disguise detector: a ZIP signature match
is ignored when the declared type or the lower-cased filename indicates a
ZIP archive. -/
def isExpectedZip (f : JSFile) : Bool :=
  f.type == "application/zip" || f.type == "application/x-zip-compressed" ||
    strEndsWith (strLower f.name) ".zip"

/-- The disguise threat emitted for one matching executable signature. -/
def disguiseThreat (sigName : String) (sev : Severity) (f : JSFile) :
    SecurityThreat :=
  { ttype := .suspicious_content
    name := sigName
    severity := sev
    description := "File contains " ++ (sigName ++
      (" signature but is disguised as " ++ f.type)) }

/-- The single header Script Injection threat. -/
def scriptInjectionThreat : SecurityThreat :=
  { ttype := .injection
    name := "Script Injection"
    severity := .high
    description := "File contains potentially malicious script code" }

/-- `SecurityScanner.validateMimeAndMagicBytes`: reads the first 64
bytes, flags every matching executable/container signature (with the ZIP
archive exception), then decodes the header as permissive UTF-8 and emits
one Script Injection threat when any of the seven script regexes matches
(the loop breaks after the first). -/
def scannerMimeAndMagicThreats (f : JSFile) : List SecurityThreat :=
  let bytes := f.content.take 64
  let sigThreats := executableSignatures.flatMap fun sig =>
    if matchesSignature bytes sig.1 then
      if sig.2.1 == "ZIP Archive (potential)" && isExpectedZip f then []
      else [disguiseThreat sig.2.1 sig.2.2 f]
    else []
  let headerText := decodeString bytes
  sigThreats ++ (if headerScriptMatch headerText then [scriptInjectionThreat] else [])

/-- An injection threat of `detectInjectionPatterns`, annotated with the
match count. -/
def injectionThreat (nm : String) (sev : Severity) (desc : String)
    (count : Nat) : SecurityThreat :=
  { ttype := .injection
    name := nm
    severity := sev
    description := desc ++ (" (" ++ (toString count ++ " matches found)")) }

/-- The Custom Pattern Match threat of `detectInjectionPatterns`. -/
def customPatternThreat : SecurityThreat :=
  { ttype := .suspicious_content
    name := "Custom Pattern Match"
    severity := .medium
    description := "File matches custom suspicious pattern" }

/-- `SecurityScanner.detectInjectionPatterns`: decodes the whole file as
text (`File.text()`, which never throws thanks to lossy decoding) and
tests the five fixed rules, each contributing one threat annotated with
its global match count, followed by the caller-supplied suspicious
patterns. -/
def detectInjectionPatterns (cfg : SecurityScanConfig) (f : JSFile) :
    List SecurityThreat :=
  let text := decodeString f.content
  (if sqlCount text > 0 then
    [injectionThreat "SQL Injection" .high
      "File contains potential SQL injection patterns" (sqlCount text)]
   else []) ++
  (if xssCount text > 0 then
    [injectionThreat "Cross-Site Scripting (XSS)" .high
      "File contains script tags that could execute malicious code"
      (xssCount text)]
   else []) ++
  (if codeExecCount text > 0 then
    [injectionThreat "Code Injection" .critical
      "File contains code execution functions" (codeExecCount text)]
   else []) ++
  (if templateCount text > 0 then
    [injectionThreat "Template Injection" .medium
      "File contains template injection patterns" (templateCount text)]
   else []) ++
  (if cmdCount text > 0 then
    [injectionThreat "Command Injection" .high
      "File contains command execution patterns" (cmdCount text)]
   else []) ++
  (match cfg.suspiciousPatterns with
   | none => []
   | some pats => pats.flatMap fun p =>
       if p text then [customPatternThreat] else [])

/-- `SecurityScanner.matchesYaraRule` (the simplified implementation):
the rule text contains `"malware"` and the file is non-empty. -/
def matchesYaraRule (content : List Nat) (rule : String) : Bool :=
  strContains rule "malware" && content.length > 0

/-- The threat emitted for a matching YARA rule. -/
def yaraThreat (rule : String) : SecurityThreat :=
  { ttype := .yara_match
    name := "YARA Rule: " ++ rule
    severity := .high
    description := "File matches YARA rule: " ++ rule }

/-- `SecurityScanner.scanWithYaraRules`: one high-severity threat per
matching configured rule (none when no rules are configured). -/
def scanWithYaraRules (cfg : SecurityScanConfig) (f : JSFile) :
    List SecurityThreat :=
  match cfg.yaraRules with
  | none => []
  | some rules => rules.flatMap fun rule =>
      if matchesYaraRule f.content rule then [yaraThreat rule] else []

/-- Matcher of the default signature `/TVqQAAMAAAAEAAAA/g`. -/
def base64ExeMatch (text : String) : Bool :=
  strContains text "TVqQAAMAAAAEAAAA"

/-- Matcher of the default signature
`/(Invoke-Expression|IEX|DownloadString|EncodedCommand)/gi`. -/
def powershellMatch (text : String) : Bool :=
  let l := lcs text.data
  isSubList ("invoke-expression".data) l || isSubList ("iex".data) l ||
    isSubList ("downloadstring".data) l || isSubList ("encodedcommand".data) l

/-- One position of `eval\s*\(\s*unescape\s*\(` on a lower-cased text. -/
def evalUnescapeAt (l : List Char) : Bool :=
  if ("eval".data).isPrefixOf l then
    match (l.drop 4).dropWhile isSpaceChar with
    | '(' :: r2 =>
      match r2.dropWhile isSpaceChar with
      | r3 =>
        if ("unescape".data).isPrefixOf r3 then
          match (r3.drop 8).dropWhile isSpaceChar with
          | '(' :: _ => true
          | _ => false
        else false
    | _ => false
  else false

/-- One position of `\\x[0-9a-f]{2}` (a literal backslash, `x`, two hex
digits; the `i` flag also admits uppercase digits) on the raw text. -/
def hexEscapeAt (l : List Char) : Bool :=
  match l with
  | '\\' :: x :: d1 :: d2 :: _ =>
    (x == 'x' || x == 'X') &&
      (d1.isDigit || ('a' ≤ d1 && d1 ≤ 'f') || ('A' ≤ d1 && d1 ≤ 'F')) &&
      (d2.isDigit || ('a' ≤ d2 && d2 ≤ 'f') || ('A' ≤ d2 && d2 ≤ 'F'))
  | _ => false

/-- Matcher of the default signature
`/eval\s*\(\s*unescape\s*\(|String\.fromCharCode|\\x[0-9a-f]{2}/gi`. -/
def obfuscatedJsMatch (text : String) : Bool :=
  let l := lcs text.data
  let raw := text.data
  anyTail evalUnescapeAt l || isSubList ("string.fromcharcode".data) l ||
    anyTail (fun t => hexEscapeAt t) raw
where
  anyTail (p : List Char → Bool) : List Char → Bool
    | [] => false
    | c :: rest => p (c :: rest) || anyTail p rest

/-- Matcher of the default signature
`/HKEY_(LOCAL_MACHINE|CURRENT_USER)\\Software\\Microsoft\\Windows\\CurrentVersion\\Run/gi`. -/
def registryRunMatch (text : String) : Bool :=
  let l := lcs text.data
  isSubList (("hkey_local_machine" ++
    "\\software\\microsoft\\windows\\currentversion\\run").data) l ||
  isSubList (("hkey_current_user" ++
    "\\software\\microsoft\\windows\\currentversion\\run").data) l

/-- `SecurityScanner.initializeDefaultSignatures`: the built-in catalog
of four signatures. -/
def defaultSignatures : List SecuritySignature :=
  [{ name := "Base64 Encoded Executable"
     pattern := base64ExeMatch
     patternStr := "/TVqQAAMAAAAEAAAA/g"
     severity := .high
     description := "File contains base64 encoded executable" },
   { name := "Suspicious PowerShell"
     pattern := powershellMatch
     patternStr := "/(Invoke-Expression|IEX|DownloadString|EncodedCommand)/gi"
     severity := .high
     description := "File contains suspicious PowerShell commands" },
   { name := "Obfuscated JavaScript"
     pattern := obfuscatedJsMatch
     patternStr :=
       "/eval\\s*\\(\\s*unescape\\s*\\(|String\\.fromCharCode|\\\\x[0-9a-f]\x7b2\x7d/gi"
     severity := .medium
     description := "File contains obfuscated JavaScript" },
   { name := "Suspicious Registry Access"
     pattern := registryRunMatch
     patternStr :=
       "/HKEY_(LOCAL_MACHINE|CURRENT_USER)\\\\Software\\\\Microsoft\\\\Windows\\\\CurrentVersion\\\\Run/gi"
     severity := .high
     description := "File contains registry autostart entries" }]

/-- `SecurityScanner.scanCustomSignatures`: tests the default catalog
plus any caller-supplied signatures against the decoded file text.
RegExp `lastIndex` statefulness of the shared `g`-flagged patterns across
successive scans is not modelled; the embedding is the first-scan
semantics. -/
def scanCustomSignatures (cfg : SecurityScanConfig) (f : JSFile) :
    List SecurityThreat :=
  let text := decodeString f.content
  (defaultSignatures ++ cfg.customSignatures.getD []).flatMap fun s =>
    if s.pattern text then
      [{ ttype := .suspicious_content
         name := s.name
         severity := s.severity
         description := s.description
         signature := some s.patternStr }]
    else []

/-- The threat built from one entry of the external scanner's verdict. -/
def virusThreat (t : VirusThreatInfo) : SecurityThreat :=
  { ttype := .virus
    name := t.name.getD "Unknown Virus"
    severity := .critical
    description := t.description.getD "Virus detected by scanner" }

/-- `SecurityScanner.scanForViruses`: no endpoint means no scan; a failed
call (modelled by `env.virusResponse = none`) is swallowed; an unclean
verdict with a threat list maps each entry to a critical virus threat. -/
def scanForViruses (cfg : SecurityScanConfig) (env : ScanEnv) :
    List SecurityThreat :=
  match cfg.virusScannerEndpoint with
  | none => []
  | some _ =>
    match env.virusResponse with
    | none => []
    | some resp =>
      if resp.clean = false then
        match resp.threats with
        | some l => l.map virusThreat
        | none => []
      else []

/-- The Empty File threat of `analyzeFileStructure`. -/
def emptyFileThreat : SecurityThreat :=
  { ttype := .suspicious_content
    name := "Empty File"
    severity := .low
    description := "File is empty which may be suspicious" }

/-- The extension taken by `analyzeFileStructure`:
`file.name.split(".").pop()?.toLowerCase()` — the last dot-separated part
(the whole name when there is no dot), lower-cased. -/
def lastDotPart (name : String) : String :=
  ⟨((splitOnChar '.' name.data).getLastD []).map Char.toLower⟩

/-- The misleading extension/MIME pairs of `analyzeFileStructure`. -/
def suspiciousCombinations : List (String × String) :=
  [("txt", "application/octet-stream"), ("jpg", "text/html"),
   ("png", "text/javascript"), ("pdf", "text/html")]

/-- The MIME Type Mismatch threat for a flagged combination. -/
def mimeMismatchThreat (ext mime : String) : SecurityThreat :=
  { ttype := .suspicious_content
    name := "MIME Type Mismatch"
    severity := .medium
    description := "File extension " ++ (ext ++
      (" doesn" ++ (String.singleton (Char.ofNat 39) ++
        ("t match MIME type " ++ mime)))) }

/-- `SecurityScanner.analyzeFileStructure`: flags zero-length files (low)
and misleading extension/MIME combinations (medium). -/
def analyzeFileStructure (f : JSFile) : List SecurityThreat :=
  (if f.size = 0 then [emptyFileThreat] else []) ++
    suspiciousCombinations.flatMap fun combo =>
      if lastDotPart f.name == combo.1 && f.type == combo.2 then
        [mimeMismatchThreat (lastDotPart f.name) f.type]
      else []

/-- The scanner identity string. -/
def scannerId : String := "SecureDrop Security Engine v1.0"

/-- The threat list assembled by the `try` block of
`SecurityScanner.scanFile`, in source order: disguise/header detection,
gated injection detection, gated YARA matching (the gate also requires
`yaraRules` to be set; an empty rule array is truthy), the signature
catalog, gated external virus scanning, structural analysis. -/
def scanThreats (cfg : SecurityScanConfig) (f : JSFile) (env : ScanEnv) :
    List SecurityThreat :=
  scannerMimeAndMagicThreats f ++
    (if cfg.enableInjectionDetection then detectInjectionPatterns cfg f else []) ++
    (if cfg.enableYaraScanning && cfg.yaraRules.isSome then
      scanWithYaraRules cfg f
     else []) ++
    scanCustomSignatures cfg f ++
    (if cfg.enableVirusScanning then scanForViruses cfg env else []) ++
    analyzeFileStructure f

/-- The normal (non-throwing) path of `SecurityScanner.scanFile`:
aggregates the threats, and a file is clean exactly when the lists of
critical and high threats are both empty; `confidence` is
`Math.max(0, 1 - threats.length * 0.1)`; `quarantined` is `!isClean`. -/
def scanFileOk (cfg : SecurityScanConfig) (f : JSFile) (env : ScanEnv) :
    SecurityScanResult :=
  let threats := scanThreats cfg f env
  let isClean :=
    ((threats.filter (fun t => t.severity == Severity.critical)).length == 0) &&
      ((threats.filter (fun t => t.severity == Severity.high)).length == 0)
  { isClean := isClean
    threats := threats
    scanner := scannerId
    confidence := max 0 (1 - (threats.length : ℚ) * (1 / 10))
    quarantined := !isClean }

/-- The `catch` branch of `SecurityScanner.scanFile`: a single medium
`suspicious_content` threat, `isClean = false`, `confidence = 0`,
`quarantined = true`. -/
def scanErrorThreat : SecurityThreat :=
  { ttype := .suspicious_content
    name := "Scan Error"
    severity := .medium
    description := "Could not complete security scan" }

/-- The result the `catch` branch of `scanFile` returns. -/
def scanErrorResult : SecurityScanResult :=
  { isClean := false
    threats := [scanErrorThreat]
    scanner := scannerId
    confidence := 0
    quarantined := true }

/-- `SecurityScanner.scanFile`.  `thrown` selects the `catch` branch,
modelling an unexpected exception from an internal detector during the
`try` block; the function is total either way — a suspicious file
produces threats, never an exception. -/
def scanFile (cfg : SecurityScanConfig) (f : JSFile) (env : ScanEnv)
    (thrown : Bool) : SecurityScanResult :=
  if thrown then scanErrorResult else scanFileOk cfg f env

/-- The `STRICT` entry of `SECURITY_CONFIGS`. -/
def SECURITY_CONFIGS.STRICT : SecurityScanConfig :=
  { enableVirusScanning := true
    enableInjectionDetection := true
    enableYaraScanning := true
    enableSandboxing := false
    yaraRules := some ["malware.yar", "suspicious.yar"] }

/-- The `MODERATE` entry of `SECURITY_CONFIGS`. -/
def SECURITY_CONFIGS.MODERATE : SecurityScanConfig :=
  { enableVirusScanning := true
    enableInjectionDetection := true
    enableYaraScanning := false
    enableSandboxing := false }

/-- The `BASIC` entry of `SECURITY_CONFIGS`. -/
def SECURITY_CONFIGS.BASIC : SecurityScanConfig :=
  { enableVirusScanning := false
    enableInjectionDetection := true
    enableYaraScanning := false
    enableSandboxing := false }

/-! ## The scan stage of SecureDropAPI.uploadFile (backend-api module) -/

/-- Observable outcome of the scan stage of `uploadFile`: the recorded
scan result (`scanResult` starts as `null`), whether
`securityScanner.scanFile` was invoked at all, and whether the stage threw
`"Security scan failed: File contains threats"`. -/
structure UploadScanOutcome where
  scanResult : Option SecurityScanResult
  scannerRan : Bool
  rejectedForThreats : Bool

/-- Embedding of step 5 of `SecureDropAPI.uploadFile` (backend-api
module): `scanResult` starts `null`; only when `options.requireScan` holds
AND a `beforeScan` hook is registered is the hook consulted, and only when
it returns `true` does the scanner run; an unclean result is audit-logged
and rejected.  The scanner and hook are passed as functions so the stage's
control flow is the object of study. -/
def uploadScanStage (beforeScan : Option (JSFile → Bool)) (requireScan : Bool)
    (runScanner : JSFile → SecurityScanResult) (f : JSFile) :
    UploadScanOutcome :=
  if requireScan then
    match beforeScan with
    | some hook =>
      if hook f then
        let r := runScanner f
        { scanResult := some r, scannerRan := true,
          rejectedForThreats := !r.isClean }
      else { scanResult := none, scannerRan := false, rejectedForThreats := false }
    | none => { scanResult := none, scannerRan := false, rejectedForThreats := false }
  else { scanResult := none, scannerRan := false, rejectedForThreats := false }

/-! ## Helper lemmas -/

/-- In both return paths of `validateFile`, validity is emptiness of the
error list. -/
theorem validateFile_isValid_eq (cfg : FileValidationConfig) (f : JSFile) :
    (validateFile cfg f).isValid = (validateFile cfg f).errors.isEmpty := by
  unfold validateFile
  split <;> rfl

/-- Cleanliness of the normal scan path, characterized over the threat
list: clean exactly when no threat is high or critical. -/
theorem scanFileOk_isClean_iff (cfg : SecurityScanConfig) (f : JSFile)
    (env : ScanEnv) :
    (scanFileOk cfg f env).isClean = true ↔
      ∀ t ∈ (scanFileOk cfg f env).threats,
        ¬(t.severity = Severity.high ∨ t.severity = Severity.critical) := by
  simp only [scanFileOk, Bool.and_eq_true, beq_iff_eq, Nat.beq_eq,
    List.length_eq_zero, List.filter_eq_nil_iff]
  constructor
  · rintro ⟨hc, hh⟩ t ht
    rintro (h | h)
    · exact hh t ht (by simp [h])
    · exact hc t ht (by simp [h])
  · intro h
    constructor
    · intro t ht hc
      exact h t ht (Or.inr (by simpa using hc))
    · intro t ht hh
      exact h t ht (Or.inl (by simpa using hh))

/-- A high or critical member forces the normal scan path unclean. -/
theorem scanFileOk_not_clean_of_mem (cfg : SecurityScanConfig) (f : JSFile)
    (env : ScanEnv) (t : SecurityThreat)
    (ht : t ∈ (scanFileOk cfg f env).threats)
    (hs : t.severity = Severity.high ∨ t.severity = Severity.critical) :
    (scanFileOk cfg f env).isClean = false := by
  cases hcl : (scanFileOk cfg f env).isClean with
  | false => rfl
  | true => exact absurd hs ((scanFileOk_isClean_iff cfg f env).mp hcl t ht)

/-- Two strings with distinct 8-character-long leading literals differ,
whatever follows. -/
theorem append_ne_append_of_take8 (p q a b : String) (hp : 8 ≤ p.length)
    (hq : 8 ≤ q.length) (h : p.data.take 8 ≠ q.data.take 8) :
    p ++ a ≠ q ++ b := by
  intro he
  apply h
  have hd : (p ++ a).data = (q ++ b).data := congrArg String.data he
  rw [String.data_append, String.data_append] at hd
  have h8 := congrArg (List.take 8) hd
  rwa [List.take_append_of_le_length hp, List.take_append_of_le_length hq] at h8

/-- A bare literal with a distinct leading 8 characters differs from any
extension of another literal. -/
theorem lit_ne_append_of_take8 (p q b : String) (hq : 8 ≤ q.length)
    (h : p.data.take 8 ≠ q.data.take 8) : p ≠ q ++ b := by
  intro he
  apply h
  have hd : p.data = (q ++ b).data := congrArg String.data he
  rw [String.data_append] at hd
  have h8 := congrArg (List.take 8) hd
  rwa [List.take_append_of_le_length hq] at h8

theorem sizeErrorMsg_ne_sigErrorMsg (s m : Nat) (t : String) :
    sizeErrorMsg s m ≠ sigErrorMsg t :=
  append_ne_append_of_take8 _ _ _ _ (by decide) (by decide) (by decide)

theorem mimeErrorMsg_ne_sigErrorMsg (u : String) (l : List String)
    (t : String) : mimeErrorMsg u l ≠ sigErrorMsg t :=
  append_ne_append_of_take8 _ _ _ _ (by decide) (by decide) (by decide)

theorem extErrorMsg_ne_sigErrorMsg (u : String) (l : List String)
    (t : String) : extErrorMsg u l ≠ sigErrorMsg t :=
  append_ne_append_of_take8 _ _ _ _ (by decide) (by decide) (by decide)

theorem nameErr_ne_sigErrorMsg (t : String) :
    "File name is required" ≠ sigErrorMsg t :=
  lit_ne_append_of_take8 _ _ _ (by decide) (by decide)

theorem mimeErrorMsg_ne_sizeErrorMsg (u : String) (l : List String)
    (s m : Nat) : mimeErrorMsg u l ≠ sizeErrorMsg s m :=
  append_ne_append_of_take8 _ _ _ _ (by decide) (by decide) (by decide)

theorem mimeErrorMsg_ne_extErrorMsg (u : String) (l : List String)
    (v : String) (l2 : List String) : mimeErrorMsg u l ≠ extErrorMsg v l2 :=
  append_ne_append_of_take8 _ _ _ _ (by decide) (by decide) (by decide)

/-- The magic-byte block contributes either nothing or exactly the
signature-mismatch error for the declared type; the `getD` fallback never
materializes. -/
theorem magicErrors_cases (f : JSFile) :
    magicErrors f = [] ∨ magicErrors f = [sigErrorMsg f.type] := by
  unfold magicErrors validateMagicBytes
  by_cases h1 : f.type = "" ∨ f.type = "application/octet-stream"
  · simp [h1]
  · by_cases h2 : signatures f.type = []
    · simp [h1, h2]
    · by_cases hok :
        (signatures f.type).any (fun sig => sig.isPrefixOf (f.content.take 16)) = true
      · simp [h1, h2, hok]
      · simp only [Bool.not_eq_true] at hok
        simp [h1, h2, hok]

/-- A prefix is a sublist. -/
theorem isSubList_of_isPrefixOf (pat l : List Char)
    (h : pat.isPrefixOf l = true) : isSubList pat l = true := by
  cases l with
  | nil =>
    cases pat with
    | nil => rfl
    | cons c cs => simp [List.isPrefixOf] at h
  | cons c cs => simp [isSubList, h]

/-- Sublist-ness survives extending on the left by one character. -/
theorem isSubList_cons (pat : List Char) (c : Char) (l : List Char)
    (h : isSubList pat l = true) : isSubList pat (c :: l) = true := by
  simp [isSubList, h]

/-- Sublist-ness survives extending on the left by any list. -/
theorem isSubList_append_left (pat pre l : List Char)
    (h : isSubList pat l = true) : isSubList pat (pre ++ l) = true := by
  induction pre with
  | nil => simpa using h
  | cons c cs ih => exact isSubList_cons pat c (cs ++ l) ih

/-- Any list is a sublist of itself followed by anything. -/
theorem isSubList_self_append (pat q : List Char) :
    isSubList pat (pat ++ q) = true :=
  isSubList_of_isPrefixOf _ _ (List.isPrefixOf_iff_prefix.mpr (List.prefix_append _ _))

/-! ## Claims -/

/-- Environment in which the external virus-scan call fails or is never
made. -/
def env0 : ScanEnv := { virusResponse := none }

/-- A small concrete text file used to exercise the scanner. -/
def sampleTextFile : JSFile := { name := "report.txt", type := "text/plain", content := [104, 105] }

/-- C1 [code_bug]: the spec requires that with `requireScan = true` the
Security Scanner runs unless a registered pre-scan hook vetoes it, and in
particular that it runs when no hook is registered at all.  The code only
consults the scanner inside `if (this.hooks.beforeScan)`: with no
`beforeScan` hook (as in the default exported `secureDropAPI`, built with
`hooks = {}`), the scanner is never invoked and `scanResult` stays null,
even though `requireScan` is true; a registered hook returning `true` does
run it. -/
theorem claim_c1_scan_skipped_without_hook
    (runScanner : JSFile → SecurityScanResult) (f : JSFile) :
    (uploadScanStage none true runScanner f).scannerRan = false ∧
    (uploadScanStage none true runScanner f).scanResult = none ∧
    (uploadScanStage (some fun _ => true) true runScanner f).scannerRan = true := by
  refine ⟨rfl, rfl, ?_⟩
  simp [uploadScanStage]

/-- C2 [corrected]: on the normal path of `scanFile`, cleanliness is
exactly the absence of high/critical threats, `quarantined` is its
negation and `confidence = max(0, 1 − 0.1 × threatCount)`; the
catch-branch result is instead pinned to `isClean = false`,
`quarantined = true`, `confidence = 0` with a single medium threat, so
there the stated invariants do not apply. -/
theorem claim_c2_scan_result_invariants (cfg : SecurityScanConfig)
    (f : JSFile) (env : ScanEnv) :
    (((scanFile cfg f env false).isClean = true ↔
        ∀ t ∈ (scanFile cfg f env false).threats,
          ¬(t.severity = Severity.high ∨ t.severity = Severity.critical)) ∧
      (scanFile cfg f env false).quarantined = !(scanFile cfg f env false).isClean ∧
      (scanFile cfg f env false).confidence =
        max 0 (1 - (1 / 10 : ℚ) * ((scanFile cfg f env false).threats.length : ℚ))) ∧
    ((scanFile cfg f env true).threats = [scanErrorThreat] ∧
      scanErrorThreat.severity = Severity.medium ∧
      (scanFile cfg f env true).isClean = false ∧
      (scanFile cfg f env true).confidence = 0 ∧
      (scanFile cfg f env true).quarantined = true) := by
  refine ⟨⟨?_, rfl, ?_⟩, rfl, rfl, rfl, rfl, rfl⟩
  · exact scanFileOk_isClean_iff cfg f env
  · show max 0 (1 - ((scanThreats cfg f env).length : ℚ) * (1 / 10)) =
      max 0 (1 - (1 / 10 : ℚ) * ((scanThreats cfg f env).length : ℚ))
    ring_nf

/-- C2 counterexample: at the catch branch the result's only threat is
medium, yet `isClean` is `false` and `confidence` is `0`, not
`max(0, 1 − 0.1 × 1) = 9/10` — the claimed invariant fails for the
result produced when an internal detector throws. -/
theorem claim_c2_counterexample :
    (scanFile SECURITY_CONFIGS.MODERATE sampleTextFile env0 true).threats =
      [scanErrorThreat] ∧
    scanErrorThreat.severity = Severity.medium ∧
    (scanFile SECURITY_CONFIGS.MODERATE sampleTextFile env0 true).isClean = false ∧
    (scanFile SECURITY_CONFIGS.MODERATE sampleTextFile env0 true).confidence = 0 ∧
    (scanFile SECURITY_CONFIGS.MODERATE sampleTextFile env0 true).confidence ≠
      max 0 (1 - (1 / 10 : ℚ) *
        (((scanFile SECURITY_CONFIGS.MODERATE sampleTextFile env0 true).threats.length : ℚ))) := by
  refine ⟨rfl, rfl, rfl, rfl, ?_⟩
  have h : (scanFile SECURITY_CONFIGS.MODERATE sampleTextFile env0 true).threats =
      [scanErrorThreat] := rfl
  have h2 : (scanFile SECURITY_CONFIGS.MODERATE sampleTextFile env0 true).confidence =
      0 := rfl
  rw [h2, h]
  simp only [List.length_cons, List.length_nil, Nat.cast_one, Nat.cast_zero]
  intro hc
  push_cast at hc
  norm_num [max_def] at hc

/-- C3 [confirmed]: `scanFile` is a total function — suspicion is
reported as `SecurityThreat` values in a result, never an exception — and
when an internal detector does throw, the catch branch returns a result
with the single `suspicious_content` threat "Scan Error",
`isClean = false` and `confidence = 0` instead of propagating. -/
theorem claim_c3_scan_never_throws (cfg : SecurityScanConfig) (f : JSFile)
    (env : ScanEnv) :
    (scanFile cfg f env false).threats = scanThreats cfg f env ∧
    scanFile cfg f env true = scanErrorResult ∧
    scanErrorResult.threats = [scanErrorThreat] ∧
    scanErrorThreat.ttype = ThreatType.suspicious_content ∧
    scanErrorResult.isClean = false ∧
    scanErrorResult.confidence = 0 := by
  exact ⟨rfl, rfl, rfl, rfl, rfl, rfl⟩

/-- The Scenario B file: a buffer starting with the PE header bytes
`4D 5A`, declared as `photo.jpg` / `image/jpeg`. -/
def scenarioBFile (rest : List Nat) : JSFile :=
  { name := "photo.jpg", type := "image/jpeg", content := 0x4D :: 0x5A :: rest }

/-- C4 counterexample: for the Scenario B buffer the validator's
signature check does NOT pass structurally — `image/jpeg` has the table
entry `FF D8 FF`, the PE bytes fail it, and `validateFile` (here under
the GENERAL config) reports the hard signature error — refuting the
claim's "passes structurally (no PE entry exists under image/jpeg)". -/
theorem claim_c4_counterexample :
    (validateMagicBytes (scenarioBFile [])).isValid = false ∧
    (validateMagicBytes (scenarioBFile [])).error =
      some (sigErrorMsg "image/jpeg") ∧
    sigErrorMsg "image/jpeg" ∈
      (validateFile DEFAULT_CONFIGS.GENERAL (scenarioBFile [])).errors := by
  decide

/-- C4 [corrected]: for every buffer starting `4D 5A` declared
`photo.jpg` / `image/jpeg`, the validator's signature check fails
structurally (rather than passing as claimed), the scanner's disguise
detector reports the critical "Windows PE Executable" threat, and the
scan result is unclean. -/
theorem claim_c4_scenario_b (rest : List Nat) (cfg : SecurityScanConfig)
    (env : ScanEnv) :
    (validateMagicBytes (scenarioBFile rest)).isValid = false ∧
    disguiseThreat "Windows PE Executable" Severity.critical (scenarioBFile rest) ∈
      (scanFile cfg (scenarioBFile rest) env false).threats ∧
    (scanFile cfg (scenarioBFile rest) env false).isClean = false := by
  have hmem : disguiseThreat "Windows PE Executable" Severity.critical
      (scenarioBFile rest) ∈ scannerMimeAndMagicThreats (scenarioBFile rest) := by
    unfold scannerMimeAndMagicThreats executableSignatures
    simp [scenarioBFile, matchesSignature, List.isPrefixOf, isExpectedZip]
  have hmem2 : disguiseThreat "Windows PE Executable" Severity.critical
      (scenarioBFile rest) ∈ (scanFile cfg (scenarioBFile rest) env false).threats :=
    List.mem_append_left _ (List.mem_append_left _ (List.mem_append_left _
      (List.mem_append_left _ (List.mem_append_left _ hmem))))
  refine ⟨?_, hmem2, ?_⟩
  · unfold validateMagicBytes signatures
    simp [scenarioBFile, List.isPrefixOf]
  · exact scanFileOk_not_clean_of_mem cfg (scenarioBFile rest) env _ hmem2
      (Or.inr rfl)

/-- A concrete non-empty file for the YARA witness. -/
def yaraSampleFile : JSFile :=
  { name := "sample.bin", type := "application/x-test", content := [0x41] }

/-- C10 [confirmed]: with YARA scanning enabled and a configured rule
containing the substring "malware", every non-empty file receives a
high-severity `yara_match` threat for that rule and is reported unclean;
in particular `SECURITY_CONFIGS.STRICT` (whose rules include
`malware.yar`) reports every non-empty file unclean. -/
theorem claim_c10_yara_flags_all (cfg : SecurityScanConfig) :
    (∀ (f : JSFile) (env : ScanEnv) (rules : List String) (rule : String),
      cfg.enableYaraScanning = true → cfg.yaraRules = some rules →
      rule ∈ rules → strContains rule "malware" = true → f.content ≠ [] →
      yaraThreat rule ∈ (scanFile cfg f env false).threats ∧
        (scanFile cfg f env false).isClean = false) ∧
    (∀ (f : JSFile) (env : ScanEnv), f.content ≠ [] →
      (scanFile SECURITY_CONFIGS.STRICT f env false).isClean = false) := by
  have main : ∀ (cfg' : SecurityScanConfig) (f : JSFile) (env : ScanEnv)
      (rules : List String) (rule : String),
      cfg'.enableYaraScanning = true → cfg'.yaraRules = some rules →
      rule ∈ rules → strContains rule "malware" = true → f.content ≠ [] →
      yaraThreat rule ∈ (scanFile cfg' f env false).threats ∧
        (scanFile cfg' f env false).isClean = false := by
    intro cfg' f env rules rule hEn hRules hr hmal hne
    have hmatch : matchesYaraRule f.content rule = true := by
      have hpos : 0 < f.content.length := List.length_pos.mpr hne
      simp [matchesYaraRule, hmal, hpos]
    have hyara : yaraThreat rule ∈ scanWithYaraRules cfg' f := by
      unfold scanWithYaraRules
      rw [hRules]
      exact List.mem_flatMap.mpr ⟨rule, hr, by simp [hmatch]⟩
    have hgate : (if cfg'.enableYaraScanning && cfg'.yaraRules.isSome then
        scanWithYaraRules cfg' f else []) = scanWithYaraRules cfg' f := by
      rw [if_pos]
      rw [hEn, hRules]
      rfl
    have hmem : yaraThreat rule ∈ (scanFile cfg' f env false).threats := by
      refine List.mem_append_left _ (List.mem_append_left _
        (List.mem_append_left _ (List.mem_append_right _ ?_)))
      rw [hgate]
      exact hyara
    exact ⟨hmem, scanFileOk_not_clean_of_mem cfg' f env _ hmem (Or.inl rfl)⟩
  refine ⟨main cfg, ?_⟩
  intro f env hne
  exact (main SECURITY_CONFIGS.STRICT f env ["malware.yar", "suspicious.yar"]
    "malware.yar" rfl rfl (by decide) (by decide) hne).2

/-- C10 witness: the strict configuration flags the concrete one-byte
file `sample.bin` with the `malware.yar` rule threat and reports it
unclean. -/
theorem claim_c10_yara_flags_all_witness :
    yaraThreat "malware.yar" ∈
      (scanFile SECURITY_CONFIGS.STRICT yaraSampleFile env0 false).threats ∧
    (scanFile SECURITY_CONFIGS.STRICT yaraSampleFile env0 false).isClean = false :=
  (claim_c10_yara_flags_all SECURITY_CONFIGS.STRICT).1 yaraSampleFile env0
    ["malware.yar", "suspicious.yar"] "malware.yar" rfl rfl (by decide)
    (by decide) (by decide)

/-- A list is a sublist of itself. -/
theorem isSubList_self (pat : List Char) : isSubList pat pat = true := by
  have h := isSubList_self_append pat []
  rwa [List.append_nil] at h

theorem sizeErrorMsg_ne_fallback (s m : Nat) :
    sizeErrorMsg s m ≠ "File signature validation failed" :=
  (lit_ne_append_of_take8 _ _ _ (by decide) (by decide)).symm

theorem mimeErrorMsg_ne_fallback (u : String) (l : List String) :
    mimeErrorMsg u l ≠ "File signature validation failed" :=
  (lit_ne_append_of_take8 _ _ _ (by decide) (by decide)).symm

theorem extErrorMsg_ne_fallback (u : String) (l : List String) :
    extErrorMsg u l ≠ "File signature validation failed" :=
  (lit_ne_append_of_take8 _ _ _ (by decide) (by decide)).symm

/-- After the filename presence check, the error list of `validateFile`
is exactly the concatenation of the four check blocks, in source order. -/
theorem validateFile_errors_decomp (cfg : FileValidationConfig) (f : JSFile)
    (h : f.name ≠ "") :
    (validateFile cfg f).errors =
      sizeErrors cfg f ++ mimeErrors cfg f ++ extErrors cfg f ++ magicErrors f := by
  unfold validateFile
  rw [if_neg h]

/-- On an empty filename, `validateFile` returns early. -/
theorem validateFile_empty_name (cfg : FileValidationConfig) (f : JSFile)
    (h : f.name = "") :
    validateFile cfg f = ⟨false, ["File name is required"], []⟩ := by
  unfold validateFile
  rw [if_pos h]

theorem mem_sizeErrors (cfg : FileValidationConfig) (f : JSFile) (e : String)
    (h : e ∈ sizeErrors cfg f) : e = sizeErrorMsg f.size cfg.maxFileSize := by
  unfold sizeErrors at h
  split at h
  · simpa using h
  · simp at h

theorem mem_mimeErrors (cfg : FileValidationConfig) (f : JSFile) (e : String)
    (h : e ∈ mimeErrors cfg f) : e = mimeErrorMsg f.type cfg.allowedMimeTypes := by
  unfold mimeErrors at h
  split at h
  · simpa using h
  · simp at h

theorem mem_extErrors (cfg : FileValidationConfig) (f : JSFile) (e : String)
    (h : e ∈ extErrors cfg f) :
    e = extErrorMsg (getFileExtension f.name) cfg.allowedExtensions := by
  unfold extErrors at h
  split at h
  · simpa using h
  · simp at h

theorem mem_magicErrors (f : JSFile) (e : String) (h : e ∈ magicErrors f) :
    e = sigErrorMsg f.type := by
  rcases magicErrors_cases f with hc | hc <;> rw [hc] at h
  · simp at h
  · simpa using h

/-- Under a populated signature-table entry, `validateMagicBytes` reduces
to the prefix test over the candidate list. -/
theorem validateMagicBytes_eval (f : JSFile) (h : signatures f.type ≠ []) :
    validateMagicBytes f =
      ⟨(signatures f.type).any (fun sig => sig.isPrefixOf (f.content.take 16)),
        if (signatures f.type).any (fun sig => sig.isPrefixOf (f.content.take 16))
        then none else some (sigErrorMsg f.type)⟩ := by
  have htype : ¬(f.type = "" ∨ f.type = "application/octet-stream") := by
    rintro (h1 | h1) <;> rw [h1] at h <;> exact h rfl
  unfold validateMagicBytes
  rw [if_neg htype, if_neg h]

/-- Under a populated signature-table entry, the magic block is governed
by the prefix test. -/
theorem magicErrors_eval (f : JSFile) (h : signatures f.type ≠ []) :
    magicErrors f =
      if (signatures f.type).any (fun sig => sig.isPrefixOf (f.content.take 16))
      then [] else [sigErrorMsg f.type] := by
  unfold magicErrors
  rw [validateMagicBytes_eval f h]
  by_cases hok :
      (signatures f.type).any (fun sig => sig.isPrefixOf (f.content.take 16)) = true
  · simp [hok]
  · simp only [Bool.not_eq_true] at hok
    simp [hok]

/-- The fuel-bounded unit exponent respects the power bound. -/
theorem logFloor1024Aux_le (fuel n k : Nat) (h : n < 1024 ^ (k + 1)) :
    logFloor1024Aux fuel n ≤ k := by
  induction fuel generalizing n k with
  | zero => simp [logFloor1024Aux]
  | succ fuel ih =>
    unfold logFloor1024Aux
    split
    · exact Nat.zero_le k
    · rename_i hn
      cases k with
      | zero =>
        rw [pow_one] at h
        omega
      | succ k' =>
        have hdiv : n / 1024 < 1024 ^ (k' + 1) := by
          rw [Nat.div_lt_iff_lt_mul (by norm_num)]
          calc n < 1024 ^ (k' + 2) := h
            _ = 1024 ^ (k' + 1) * 1024 := by ring
        exact Nat.succ_le_succ (ih (n / 1024) k' hdiv)

/-- Below one terabyte, the unit appended by `formatBytes` is one of the
four binary-prefixed units. -/
theorem unitOf_mem_sizesArr (n : Nat) (h : n < 1024 ^ 4) :
    unitOf n ∈ sizesArr := by
  by_cases hn : n = 0
  · simp [unitOf, hn, sizesArr]
  · have hle : byteUnitIndex n ≤ 3 := logFloor1024Aux_le n n 3 h
    unfold unitOf
    rw [if_neg hn]
    have hcases : byteUnitIndex n = 0 ∨ byteUnitIndex n = 1 ∨
        byteUnitIndex n = 2 ∨ byteUnitIndex n = 3 := by omega
    rcases hcases with hc | hc | hc | hc <;> rw [hc] <;> simp [sizesArr]

/-- `formatBytes` always ends in a space and its unit token. -/
theorem formatBytes_decomp (n : Nat) :
    ∃ s, formatBytes n = s ++ " " ++ unitOf n := by
  by_cases hn : n = 0
  · exact ⟨"0", by rw [hn]; decide⟩
  · refine ⟨renderFixed2 (roundHalfUp (n * 100) (1024 ^ byteUnitIndex n)), ?_⟩
    unfold formatBytes unitOf
    rw [if_neg hn, if_neg hn]

/-- A configuration violated on several counts at once by the C5
counterexample file. -/
def c5Cfg : FileValidationConfig :=
  { maxFileSize := 1, allowedMimeTypes := ["image/*"],
    allowedExtensions := ["png"], maxFiles := 5, requireHash := false }

/-- A file with an empty name that also violates the size and MIME
checks. -/
def c5File : JSFile := { name := "", type := "text/markdown", content := [0, 0] }

/-- C5 counterexample: a file with an empty (missing) filename
short-circuits `validateFile` — although it also violates the size limit
and the MIME allow-list, the result carries only the single presence
error, not one error per violated check. -/
theorem claim_c5_counterexample :
    c5File.size > c5Cfg.maxFileSize ∧
    (c5Cfg.allowedMimeTypes.any fun t => isMatchingMimeType c5File.type t) = false ∧
    (validateFile c5Cfg c5File).errors = ["File name is required"] ∧
    sizeErrorMsg c5File.size c5Cfg.maxFileSize ∉ (validateFile c5Cfg c5File).errors ∧
    mimeErrorMsg c5File.type c5Cfg.allowedMimeTypes ∉ (validateFile c5Cfg c5File).errors := by
  decide

/-- C5 [corrected]: for every file with a non-empty filename, all of the
validator's checks run with no short-circuiting — the error list is
exactly the concatenation of the per-check contributions, its length is
the sum of the per-check counts, and each violated check contributes its
own entry; a file with an empty filename instead returns early with the
single presence error. -/
theorem claim_c5_all_checks_run (cfg : FileValidationConfig) (f : JSFile)
    (h : f.name ≠ "") :
    (validateFile cfg f).errors =
      sizeErrors cfg f ++ mimeErrors cfg f ++ extErrors cfg f ++ magicErrors f ∧
    (validateFile cfg f).errors.length =
      (sizeErrors cfg f).length + (mimeErrors cfg f).length +
        (extErrors cfg f).length + (magicErrors f).length ∧
    (f.size > cfg.maxFileSize →
      sizeErrorMsg f.size cfg.maxFileSize ∈ (validateFile cfg f).errors) ∧
    (0 < cfg.allowedMimeTypes.length ∧
        (cfg.allowedMimeTypes.any fun t => isMatchingMimeType f.type t) = false →
      mimeErrorMsg f.type cfg.allowedMimeTypes ∈ (validateFile cfg f).errors) ∧
    (0 < cfg.allowedExtensions.length ∧
        cfg.allowedExtensions.contains (strLower (getFileExtension f.name)) = false →
      extErrorMsg (getFileExtension f.name) cfg.allowedExtensions ∈
        (validateFile cfg f).errors) := by
  have hd := validateFile_errors_decomp cfg f h
  refine ⟨hd, ?_, ?_, ?_, ?_⟩
  · rw [hd]
    simp [List.length_append]
    omega
  · intro hsz
    rw [hd]
    refine List.mem_append_left _ (List.mem_append_left _
      (List.mem_append_left _ ?_))
    unfold sizeErrors
    rw [if_pos hsz]
    exact List.mem_singleton_self _
  · intro hm
    rw [hd]
    refine List.mem_append_left _ (List.mem_append_left _
      (List.mem_append_right _ ?_))
    unfold mimeErrors
    rw [if_pos hm]
    exact List.mem_singleton_self _
  · intro he
    rw [hd]
    refine List.mem_append_left _ (List.mem_append_right _ ?_)
    unfold extErrors
    rw [if_pos he]
    exact List.mem_singleton_self _

/-- The config of the C5 witness. -/
def c5WitnessCfg : FileValidationConfig :=
  { maxFileSize := 1, allowedMimeTypes := ["image/*"], allowedExtensions := [],
    maxFiles := 10, requireHash := false }

/-- The file of the C5 witness: violates the size and MIME checks. -/
def c5WitnessFile : JSFile :=
  { name := "big.bin", type := "application/x-foo", content := [1, 2, 3] }

/-- C5 witness: at a concrete doubly-violating file with a non-empty
name, the error list is the concatenation of the check blocks and has one
entry per violated check. -/
theorem claim_c5_all_checks_run_witness :
    (validateFile c5WitnessCfg c5WitnessFile).errors =
      sizeErrors c5WitnessCfg c5WitnessFile ++ mimeErrors c5WitnessCfg c5WitnessFile ++
        extErrors c5WitnessCfg c5WitnessFile ++ magicErrors c5WitnessFile ∧
    (validateFile c5WitnessCfg c5WitnessFile).errors.length = 2 :=
  ⟨(claim_c5_all_checks_run c5WitnessCfg c5WitnessFile (by decide)).1, by decide⟩

/-- C6 [confirmed]: for every file whose declared MIME type has a
non-empty signature-table entry, a leading-byte buffer matching no
candidate signature always yields a hard validation error (with the
signature-mismatch error present whenever the filename is non-empty),
while a matching buffer never yields a signature error, regardless of the
declared filename extension. -/
theorem claim_c6_signature_consistency (cfg : FileValidationConfig)
    (f : JSFile) (h : signatures f.type ≠ []) :
    ((signatures f.type).any (fun sig => sig.isPrefixOf (f.content.take 16)) = false →
      (validateFile cfg f).isValid = false ∧
      (f.name ≠ "" → sigErrorMsg f.type ∈ (validateFile cfg f).errors)) ∧
    ((signatures f.type).any (fun sig => sig.isPrefixOf (f.content.take 16)) = true →
      sigErrorMsg f.type ∉ (validateFile cfg f).errors ∧
      "File signature validation failed" ∉ (validateFile cfg f).errors) := by
  constructor
  · intro hany
    by_cases hname : f.name = ""
    · rw [validateFile_empty_name cfg f hname]
      exact ⟨rfl, fun hn => absurd hname hn⟩
    · have hmagic : magicErrors f = [sigErrorMsg f.type] := by
        rw [magicErrors_eval f h, if_neg (by simp [hany])]
      have hmem : sigErrorMsg f.type ∈ (validateFile cfg f).errors := by
        rw [validateFile_errors_decomp cfg f hname]
        exact List.mem_append_right _ (hmagic ▸ List.mem_singleton_self _)
      refine ⟨?_, fun _ => hmem⟩
      rw [validateFile_isValid_eq, List.isEmpty_eq_false.mpr
        (List.ne_nil_of_mem hmem)]
  · intro hany
    by_cases hname : f.name = ""
    · rw [validateFile_empty_name cfg f hname]
      constructor
      · intro hmem
        rcases List.mem_singleton.mp hmem with he
        exact nameErr_ne_sigErrorMsg f.type he.symm
      · intro hmem
        rcases List.mem_singleton.mp hmem with he
        simp at he
    · have hmagic : magicErrors f = [] := by
        rw [magicErrors_eval f h, if_pos hany]
      rw [validateFile_errors_decomp cfg f hname, hmagic, List.append_nil]
      constructor
      · intro hmem
        rcases List.mem_append.mp hmem with hmem2 | hext
        · rcases List.mem_append.mp hmem2 with hsz | hmi
          · exact sizeErrorMsg_ne_sigErrorMsg _ _ _ (mem_sizeErrors cfg f _ hsz).symm
          · exact mimeErrorMsg_ne_sigErrorMsg _ _ _ (mem_mimeErrors cfg f _ hmi).symm
        · exact extErrorMsg_ne_sigErrorMsg _ _ _ (mem_extErrors cfg f _ hext).symm
      · intro hmem
        rcases List.mem_append.mp hmem with hmem2 | hext
        · rcases List.mem_append.mp hmem2 with hsz | hmi
          · exact sizeErrorMsg_ne_fallback _ _ (mem_sizeErrors cfg f _ hsz).symm
          · exact mimeErrorMsg_ne_fallback _ _ (mem_mimeErrors cfg f _ hmi).symm
        · exact extErrorMsg_ne_fallback _ _ (mem_extErrors cfg f _ hext).symm

/-- The config of the C6 witness. -/
def c6WitnessCfg : FileValidationConfig :=
  { maxFileSize := 100, allowedMimeTypes := [], allowedExtensions := [],
    maxFiles := 10, requireHash := false }

/-- A file declared `image/png` whose bytes are not a PNG header. -/
def c6WitnessFile : JSFile :=
  { name := "x.png", type := "image/png", content := [1, 2, 3] }

/-- C6 witness: the concrete fake PNG is invalid and carries the
signature-mismatch error. -/
theorem claim_c6_signature_consistency_witness :
    (validateFile c6WitnessCfg c6WitnessFile).isValid = false ∧
    sigErrorMsg "image/png" ∈ (validateFile c6WitnessCfg c6WitnessFile).errors := by
  have hc := (claim_c6_signature_consistency c6WitnessCfg c6WitnessFile
    (by decide)).1 (by decide)
  exact ⟨hc.1, hc.2 (by decide)⟩

/-- C7 [confirmed]: for batches within `config.maxFiles`, the errors of
`validateFiles` are exactly the per-file errors of `validateFile`, each
relabelled with its 1-based index and filename; for larger batches the
hard too-many-files error is additionally prepended. -/
theorem claim_c7_batch_union (cfg : FileValidationConfig)
    (files : List JSFile) :
    (files.length ≤ cfg.maxFiles →
      (validateFiles cfg files).errors = files.enum.flatMap fun p =>
        ((validateFile cfg p.2).errors).map fun e =>
          fileLabel (p.1 + 1) p.2.name ++ e) ∧
    (files.length > cfg.maxFiles →
      (validateFiles cfg files).errors = tooManyMsg cfg.maxFiles files.length ::
        (files.enum.flatMap fun p =>
          ((validateFile cfg p.2).errors).map fun e =>
            fileLabel (p.1 + 1) p.2.name ++ e)) := by
  have hguard : (fun p : Nat × JSFile =>
      let r := validateFile cfg p.2
      if r.isValid then []
      else r.errors.map fun e => fileLabel (p.1 + 1) p.2.name ++ e) =
      (fun p : Nat × JSFile =>
        ((validateFile cfg p.2).errors).map fun e =>
          fileLabel (p.1 + 1) p.2.name ++ e) := by
    funext p
    show (if (validateFile cfg p.2).isValid then [] else _) = _
    rw [validateFile_isValid_eq]
    cases herr : (validateFile cfg p.2).errors with
    | nil => simp [herr]
    | cons a as => simp [herr]
  constructor
  · intro hle
    show (if files.length > cfg.maxFiles then
        [tooManyMsg cfg.maxFiles files.length] else []) ++ _ = _
    rw [if_neg (Nat.not_lt.mpr hle), List.nil_append, hguard]
  · intro hgt
    show (if files.length > cfg.maxFiles then
        [tooManyMsg cfg.maxFiles files.length] else []) ++ _ = _
    rw [if_pos hgt, List.singleton_append, hguard]

/-- The config of the C7 witness. -/
def c7WitnessCfg : FileValidationConfig :=
  { maxFileSize := 100, allowedMimeTypes := [], allowedExtensions := ["txt"],
    maxFiles := 3, requireHash := false }

/-- The batch of the C7 witness: a valid file and one with a disallowed
extension. -/
def c7WitnessFiles : List JSFile :=
  [{ name := "a.txt", type := "text/plain", content := [65] },
   { name := "b.zip", type := "application/x-foo", content := [66] }]

/-- C7 witness: the concrete two-file batch yields exactly the relabelled
per-file errors. -/
theorem claim_c7_batch_union_witness :
    (validateFiles c7WitnessCfg c7WitnessFiles).errors =
      (c7WitnessFiles.enum.flatMap fun p =>
        ((validateFile c7WitnessCfg p.2).errors).map fun e =>
          fileLabel (p.1 + 1) p.2.name ++ e) ∧
    (validateFiles c7WitnessCfg c7WitnessFiles).errors =
      [fileLabel 2 "b.zip" ++ extErrorMsg "zip" ["txt"]] :=
  ⟨(claim_c7_batch_union c7WitnessCfg c7WitnessFiles).1 (by decide), by decide⟩

/-- The file of the C8 counterexample: empty name, oversized. -/
def c8File : JSFile := { name := "", type := "", content := [7, 7] }

/-- The config of the C8 counterexample. -/
def c8Cfg : FileValidationConfig :=
  { maxFileSize := 1, allowedMimeTypes := [], allowedExtensions := [],
    maxFiles := 10, requireHash := false }

/-- C8 counterexample: a file with an empty filename whose size exceeds
the maximum returns only the presence error — no error names the two
sizes, so the claim's universally quantified form fails. -/
theorem claim_c8_counterexample :
    c8File.size > c8Cfg.maxFileSize ∧
    (validateFile c8Cfg c8File).errors = ["File name is required"] ∧
    strContains "File name is required" (formatBytes c8File.size) = false ∧
    strContains "File name is required" (formatBytes c8Cfg.maxFileSize) = false ∧
    sizeErrorMsg c8File.size c8Cfg.maxFileSize ∉ (validateFile c8Cfg c8File).errors := by
  decide

/-- C8 [corrected]: for every file with a non-empty filename whose size
strictly exceeds `config.maxFileSize`, `validateFile` is invalid and its
errors contain the size error string, which embeds the human-readable
renderings of both the actual and the configured size; each rendering
ends in a space followed by its unit token, which is one of the base-1024
units B/KB/MB/GB whenever the quantity is below 1024⁴ (an empty filename
instead short-circuits with only the presence error). -/
theorem claim_c8_size_error (cfg : FileValidationConfig) (f : JSFile)
    (hname : f.name ≠ "") (hsz : f.size > cfg.maxFileSize) :
    (validateFile cfg f).isValid = false ∧
    sizeErrorMsg f.size cfg.maxFileSize ∈ (validateFile cfg f).errors ∧
    strContains (sizeErrorMsg f.size cfg.maxFileSize) (formatBytes f.size) = true ∧
    strContains (sizeErrorMsg f.size cfg.maxFileSize)
      (formatBytes cfg.maxFileSize) = true ∧
    (∃ s, formatBytes f.size = s ++ " " ++ unitOf f.size) ∧
    (∃ s, formatBytes cfg.maxFileSize = s ++ " " ++ unitOf cfg.maxFileSize) ∧
    (f.size < 1024 ^ 4 → unitOf f.size ∈ sizesArr) ∧
    (cfg.maxFileSize < 1024 ^ 4 → unitOf cfg.maxFileSize ∈ sizesArr) := by
  have hmem : sizeErrorMsg f.size cfg.maxFileSize ∈ (validateFile cfg f).errors := by
    rw [validateFile_errors_decomp cfg f hname]
    refine List.mem_append_left _ (List.mem_append_left _
      (List.mem_append_left _ ?_))
    unfold sizeErrors
    rw [if_pos hsz]
    exact List.mem_singleton_self _
  refine ⟨?_, hmem, ?_, ?_, formatBytes_decomp f.size,
    formatBytes_decomp cfg.maxFileSize, unitOf_mem_sizesArr f.size,
    unitOf_mem_sizesArr cfg.maxFileSize⟩
  · rw [validateFile_isValid_eq, List.isEmpty_eq_false.mpr
      (List.ne_nil_of_mem hmem)]
  · show isSubList (formatBytes f.size).data (sizeErrorMsg f.size cfg.maxFileSize).data = true
    unfold sizeErrorMsg
    rw [String.data_append, String.data_append]
    exact isSubList_append_left _ _ _ (isSubList_self_append _ _)
  · show isSubList (formatBytes cfg.maxFileSize).data
      (sizeErrorMsg f.size cfg.maxFileSize).data = true
    unfold sizeErrorMsg
    rw [String.data_append, String.data_append, String.data_append]
    refine isSubList_append_left _ _ _ (isSubList_append_left _ _ _
      (isSubList_append_left _ _ _ (isSubList_self _)))

/-- The config of the C8 witness. -/
def c8WitnessCfg : FileValidationConfig :=
  { maxFileSize := 1, allowedMimeTypes := [], allowedExtensions := [],
    maxFiles := 10, requireHash := false }

/-- The file of the C8 witness: named, three bytes against a one-byte
limit. -/
def c8WitnessFile : JSFile :=
  { name := "big.txt", type := "text/markdown", content := [1, 1, 1] }

/-- C8 witness: the concrete oversized named file is invalid and carries
the size error naming both sizes. -/
theorem claim_c8_size_error_witness :
    (validateFile c8WitnessCfg c8WitnessFile).isValid = false ∧
    sizeErrorMsg 3 1 ∈ (validateFile c8WitnessCfg c8WitnessFile).errors := by
  have hc := claim_c8_size_error c8WitnessCfg c8WitnessFile (by decide) (by decide)
  exact ⟨hc.1, hc.2.1⟩

/-- Characterization of `isMatchingMimeType`: a wildcard entry matches by
the prefix obtained from `slice(0, -2)`; any other entry matches
exactly. -/
theorem isMatchingMimeType_iff (ft t : String) :
    isMatchingMimeType ft t = true ↔
      ((strEndsWith t "/*" = true ∧
          strStartsWith ft (t.dropRight 2) = true) ∨
        (strEndsWith t "/*" = false ∧ ft = t)) := by
  unfold isMatchingMimeType
  cases hE : strEndsWith t "/*" <;> simp [hE]

/-- The config of the C9 counterexample. -/
def c9Cfg : FileValidationConfig :=
  { maxFileSize := 100, allowedMimeTypes := ["image/*"], allowedExtensions := [],
    maxFiles := 10, requireHash := false }

/-- A file declaring `imagery/png`, which is outside the `image/` family. -/
def c9File : JSFile := { name := "a.png", type := "imagery/png", content := [] }

/-- C9 counterexample: `"image/*".slice(0, -2)` is `"image"` with no
trailing slash, so the declared type `imagery/png` — which does not begin
with `image/` — is accepted by the allow-list, refuting "no type outside
that family". -/
theorem claim_c9_counterexample :
    isMatchingMimeType "imagery/png" "image/*" = true ∧
    strStartsWith "imagery/png" "image/" = false ∧
    (validateFile c9Cfg c9File).isValid = true ∧
    (validateFile c9Cfg c9File).errors = [] := by
  decide

/-- C9 [corrected]: when the allow-list is non-empty, a declared type is
accepted (no MIME error) exactly when some entry matches it — an entry
ending in `/*` matching whenever the declared type starts with the entry
minus its two final characters (`image/*` therefore also admits types
such as `imagery/png`), any other entry matching by equality; a
non-matching type always produces the hard error listing the allowed
set. -/
theorem claim_c9_mime_allow_list (cfg : FileValidationConfig) (f : JSFile)
    (hname : f.name ≠ "") (hne : cfg.allowedMimeTypes ≠ []) :
    (mimeErrorMsg f.type cfg.allowedMimeTypes ∉ (validateFile cfg f).errors ↔
      ∃ t ∈ cfg.allowedMimeTypes,
        (strEndsWith t "/*" = true ∧
          strStartsWith f.type (t.dropRight 2) = true) ∨
        (strEndsWith t "/*" = false ∧ f.type = t)) ∧
    ((cfg.allowedMimeTypes.any fun t => isMatchingMimeType f.type t) = false →
      mimeErrorMsg f.type cfg.allowedMimeTypes ∈ (validateFile cfg f).errors) := by
  have hlen : 0 < cfg.allowedMimeTypes.length := List.length_pos.mpr hne
  have hd := validateFile_errors_decomp cfg f hname
  have hmemof : (cfg.allowedMimeTypes.any fun t => isMatchingMimeType f.type t) = false →
      mimeErrorMsg f.type cfg.allowedMimeTypes ∈ (validateFile cfg f).errors := by
    intro hany
    rw [hd]
    refine List.mem_append_left _ (List.mem_append_left _
      (List.mem_append_right _ ?_))
    unfold mimeErrors
    rw [if_pos ⟨hlen, hany⟩]
    exact List.mem_singleton_self _
  refine ⟨⟨?_, ?_⟩, hmemof⟩
  · intro hnotmem
    by_contra hno
    have hany : (cfg.allowedMimeTypes.any fun t => isMatchingMimeType f.type t) = false := by
      rw [List.any_eq_false]
      intro t ht hmatch
      exact hno ⟨t, ht, (isMatchingMimeType_iff f.type t).mp hmatch⟩
    exact hnotmem (hmemof hany)
  · rintro ⟨t, ht, hmatch⟩
    have hany : (cfg.allowedMimeTypes.any fun u => isMatchingMimeType f.type u) = true :=
      List.any_eq_true.mpr ⟨t, ht, (isMatchingMimeType_iff f.type t).mpr hmatch⟩
    have hmime : mimeErrors cfg f = [] := by
      unfold mimeErrors
      rw [if_neg]
      rintro ⟨_, hfalse⟩
      rw [hany] at hfalse
      cases hfalse
    rw [hd, hmime]
    intro hmem
    rcases List.mem_append.mp hmem with hmem2 | hmag
    · rcases List.mem_append.mp hmem2 with hmem3 | hext
      · rcases List.mem_append.mp hmem3 with hsz | hmi
        · exact mimeErrorMsg_ne_sizeErrorMsg _ _ _ _ (mem_sizeErrors cfg f _ hsz)
        · simp at hmi
      · exact mimeErrorMsg_ne_extErrorMsg _ _ _ _ (mem_extErrors cfg f _ hext)
    · exact mimeErrorMsg_ne_sigErrorMsg _ _ _ (mem_magicErrors f _ hmag)

/-- The config of the C9 witness. -/
def c9WitnessCfg : FileValidationConfig :=
  { maxFileSize := 100, allowedMimeTypes := ["application/pdf"],
    allowedExtensions := [], maxFiles := 10, requireHash := false }

/-- A genuine PDF declared with the exactly allowed type. -/
def c9WitnessFile : JSFile :=
  { name := "doc.pdf", type := "application/pdf",
    content := [0x25, 0x50, 0x44, 0x46] }

/-- C9 witness: the exactly matching declared type produces no MIME
error. -/
theorem claim_c9_mime_allow_list_witness :
    mimeErrorMsg "application/pdf" ["application/pdf"] ∉
      (validateFile c9WitnessCfg c9WitnessFile).errors :=
  (claim_c9_mime_allow_list c9WitnessCfg c9WitnessFile (by decide)
    (by decide)).1.mpr ⟨"application/pdf", by decide, Or.inr ⟨by decide, rfl⟩⟩
